import Mathlib

/-!
Verification development for the iroh-chatbot repository (Tauri + Vue chat
application with an Axum proxy backend).  The TypeScript/Vue sources are
shallowly embedded as executable Lean definitions; JavaScript runtime
behaviour (truthiness, destructuring, Math.random, Date.now) is modelled
explicitly where the embedded code depends on it.
-/

namespace IrohChat

/-! ## JavaScript string primitives

Core Lean string functions such as String.startsWith, String.toLower and
String.trim are implemented on byte positions and do not reduce in the
kernel, so the JavaScript string operations the sources use are
implemented here over character lists. -/

/-- Whether the first list is an initial segment of the second. -/
def leadsList : List Char → List Char → Bool
  | [], _ => true
  | _ :: _, [] => false
  | a :: as, b :: bs => a == b && leadsList as bs

/-- JavaScript String.prototype.startsWith. -/
def jsStartsWith (s pat : String) : Bool :=
  leadsList pat.data s.data

/-- Whether pat occurs as a contiguous run inside the second list. -/
def occursIn (pat : List Char) : List Char → Bool
  | [] => pat.isEmpty
  | c :: cs => leadsList pat (c :: cs) || occursIn pat cs

/-- JavaScript String.prototype.includes. -/
def jsIncludes (s pat : String) : Bool :=
  occursIn pat.data s.data

/-- JavaScript String.prototype.toLowerCase, mapped over the characters. -/
def jsToLower (s : String) : String :=
  ⟨s.data.map Char.toLower⟩

/-- Strip whitespace from both ends of a character list. -/
def trimChars (l : List Char) : List Char :=
  ((l.dropWhile Char.isWhitespace).reverse.dropWhile Char.isWhitespace).reverse

/-- JavaScript String.prototype.trim. -/
def jsTrim (s : String) : String :=
  ⟨trimChars s.data⟩

/-! ## A small JSON value model

Used to embed the mock chat API handler.  JSON.parse never produces
JavaScript undefined, so the value type has no undefined constructor;
an absent object field is modelled with Option.  Object fields are the
fields after parsing, where JSON.parse keeps key-unique objects (the last
duplicate wins), so lookup by key is well defined. -/

inductive JsonValue where
  | jnull
  | jbool (b : Bool)
  | jnum (n : Int)
  | jstr (s : String)
  | jarr (elems : List JsonValue)
  | jobj (fields : List (String × JsonValue))

/-- JavaScript truthiness of a parsed JSON value: null, false, 0 and the
empty string are falsy; every array and object is truthy. -/
def truthy : JsonValue → Bool
  | .jnull => false
  | .jbool b => b
  | .jnum n => n != 0
  | .jstr s => s != ""
  | .jarr _ => true
  | .jobj _ => true

/-- Array.isArray on a parsed JSON value. -/
def isArray : JsonValue → Bool
  | .jarr _ => true
  | _ => false

/-- The destructuring `const \x7b messages \x7d = body` from the mock API
handler (src/unnamed/part_003, line 6): it throws a TypeError when the
parsed body is null (JSON.parse can return null for the body "null"),
yields the field for an object, and yields undefined (modelled as none)
for every other primitive or array value. -/
def getMessagesField : JsonValue → Except Unit (Option JsonValue)
  | .jnull => .error ()
  | .jobj fields => .ok (fields.lookup "messages")
  | _ => .ok none

/-! ## The canned filler sentences -/

/-- The fixed list of ten hard-coded filler sentences.  The same ten-element
list appears verbatim in the mock API handler (src/unnamed/part_003,
lines 13-24), in getBotResponse of src/src/main.ts (lines 407-421) and in
getBotResponse of src/unnamed/part_001 (lines 971-985). -/
def fallbackResponses : List String :=
  [ "That\x27s interesting! Tell me more about that."
  , "I understand. How can I help you with that?"
  , "Thanks for sharing! What else would you like to discuss?"
  , "I see your point. Let me think about that for a moment."
  , "That\x27s a great question! Here\x27s what I think about it."
  , "I appreciate you sharing that with me."
  , "That makes sense. What are your thoughts on this?"
  , "Interesting perspective! Have you considered other angles?"
  , "I\x27d love to help you explore that idea further."
  , "That\x27s a fascinating topic! Let me share what I know about it." ]

/-- The eight filler sentences of the simpler demo component
(src/unnamed/part_002, getBotResponse, lines 71-83); they are the first
eight entries of fallbackResponses. -/
def fallbackResponsesDemo : List String :=
  [ "That\x27s interesting! Tell me more about that."
  , "I understand. How can I help you with that?"
  , "Thanks for sharing! What else would you like to discuss?"
  , "I see your point. Let me think about that for a moment."
  , "That\x27s a great question! Here\x27s what I think about it."
  , "I appreciate you sharing that with me."
  , "That makes sense. What are your thoughts on this?"
  , "Interesting perspective! Have you considered other angles?" ]

/-- getBotResponse of src/src/main.ts (identical in src/unnamed/part_001
and in the mock API handler): `responses[Math.floor(Math.random() *
responses.length)]`.  The random draw lands in [0, length), which is
modelled by reducing an arbitrary natural draw r modulo the length. -/
def getBotResponse (r : Nat) : String :=
  fallbackResponses.getD (r % fallbackResponses.length) ""

/-- getBotResponse of the demo component src/unnamed/part_002, which draws
from its eight-element list the same way. -/
def getBotResponseDemo (r : Nat) : String :=
  fallbackResponsesDemo.getD (r % fallbackResponsesDemo.length) ""

/-! ## The mock chat API POST handler (src/unnamed/part_003) -/

/-- The JSON payload `JSON.stringify(\x7brole: \x27assistant\x27, content:
botResponse\x7d)` of a successful mock API response, kept structured in
the embedding. -/
structure AssistantMessage where
  role : String
  content : String
deriving DecidableEq, Repr

/-- A response body is either plain text or the serialized assistant
message object. -/
inductive ResponseBody where
  | text (s : String)
  | jsonMsg (m : AssistantMessage)
deriving DecidableEq, Repr

/-- An HTTP response as built by the mock API handler: a status code, a
body, and the Content-Type header when one is set. -/
structure HttpResponse where
  status : Nat
  body : ResponseBody
  contentType : Option String
deriving DecidableEq, Repr

/-- The POST handler of src/unnamed/part_003 (lines 4-47).  parseResult
models `await request.json()` (error means reading or parsing the body
threw), and r models the Math.random draw for the canned sentence.  The
validity test of the source is `!messages || !Array.isArray(messages)`
on the destructured field. -/
def POST (parseResult : Except Unit JsonValue) (r : Nat) : HttpResponse :=
  match parseResult with
  | .error _ => { status := 500, body := .text "Internal Server Error", contentType := none }
  | .ok parsed =>
    match getMessagesField parsed with
    | .error _ => { status := 500, body := .text "Internal Server Error", contentType := none }
    | .ok messages =>
      let invalid :=
        match messages with
        | none => true
        | some m => !truthy m || !isArray m
      if invalid then
        { status := 400, body := .text "Invalid messages format", contentType := none }
      else
        { status := 200
        , body := .jsonMsg { role := "assistant", content := getBotResponse r }
        , contentType := some "application/json" }

/-- The messages field of a parsed request body as the claim reads it: the
field of an object, absent for everything else. -/
def messagesFieldOf : JsonValue → Option JsonValue
  | .jobj fields => fields.lookup "messages"
  | _ => none

/-- A parsed request body is valid per the claim exactly when it has a
messages field and that field is an array. -/
def hasValidMessages (v : JsonValue) : Bool :=
  match messagesFieldOf v with
  | some m => isArray m
  | none => false

/-! ## Helper lemmas -/

/-- Drawing from a nonempty list at an index reduced modulo the length
stays inside the list. -/
theorem getD_mod_mem (l : List String) (r : Nat) (h : l ≠ []) :
    l.getD (r % l.length) "" ∈ l := by
  have hpos : 0 < l.length := List.length_pos.mpr h
  have hlt : r % l.length < l.length := Nat.mod_lt _ hpos
  rw [List.getD_eq_getElem l "" hlt]
  exact List.getElem_mem hlt

/-- Every sentence of the eight-element demo list is one of the ten
fallback sentences. -/
theorem demo_subset_fallback : ∀ s ∈ fallbackResponsesDemo, s ∈ fallbackResponses := by
  decide

/-! ## Claim C1 -/

/-- C1: whenever a chat request is answered by the canned-reply path (the
mock API handler on a valid request, or the demo component reply), the
response role is assistant and the response content is drawn from the
single fixed list of ten hard-coded filler sentences; the eight-sentence
demo component draws from a sublist of that same list. -/
theorem C1_fallback_fixed_list (v : JsonValue) (r rdemo : Nat)
    (h : hasValidMessages v = true) :
    (POST (Except.ok v) r).status = 200 ∧
    (POST (Except.ok v) r).body =
      ResponseBody.jsonMsg { role := "assistant", content := getBotResponse r } ∧
    getBotResponse r ∈ fallbackResponses ∧
    getBotResponseDemo rdemo ∈ fallbackResponses := by
  have hmem : getBotResponse r ∈ fallbackResponses :=
    getD_mod_mem fallbackResponses r (by decide)
  have hdemo : getBotResponseDemo rdemo ∈ fallbackResponses :=
    demo_subset_fallback _ (getD_mod_mem fallbackResponsesDemo rdemo (by decide))
  cases v with
  | jobj fields =>
    cases hl : fields.lookup "messages" with
    | none => simp [hasValidMessages, messagesFieldOf, hl] at h
    | some m =>
      simp [hasValidMessages, messagesFieldOf, hl] at h
      cases m <;> simp_all [POST, getMessagesField, hl, truthy, isArray]
  | jnull => simp [hasValidMessages, messagesFieldOf] at h
  | jbool b => simp [hasValidMessages, messagesFieldOf] at h
  | jnum n => simp [hasValidMessages, messagesFieldOf] at h
  | jstr s => simp [hasValidMessages, messagesFieldOf] at h
  | jarr elems => simp [hasValidMessages, messagesFieldOf] at h

/-- Witness for C1 at a concrete valid request body. -/
theorem C1_fallback_fixed_list_witness :
    hasValidMessages (JsonValue.jobj [("messages", JsonValue.jarr [])]) = true ∧
    (POST (Except.ok (JsonValue.jobj [("messages", JsonValue.jarr [])])) 3).status = 200 ∧
    getBotResponse 3 ∈ fallbackResponses :=
  have h : hasValidMessages (JsonValue.jobj [("messages", JsonValue.jarr [])]) = true := by
    decide
  have hc := C1_fallback_fixed_list (JsonValue.jobj [("messages", JsonValue.jarr [])]) 3 5 h
  ⟨h, hc.1, hc.2.2.1⟩

/-! ## Claim C8 -/

/-- C8 counterexample: on the parsed request body null (the request body
"null" parses successfully), the claim as stated demands a 400 response,
since null has no messages field, but the handler returns 500: the
destructuring of null throws and the catch block answers Internal Server
Error. -/
theorem C8_counterexample :
    hasValidMessages JsonValue.jnull = false ∧
    ¬ ((POST (Except.ok JsonValue.jnull) 0).status = 400 ↔
        hasValidMessages JsonValue.jnull = false) ∧
    (POST (Except.ok JsonValue.jnull) 0).status = 500 := by
  decide

/-- C8 (amended): the handler returns 500 Internal Server Error when body
reading or parsing throws and also when the parsed body is null (where
destructuring the messages field throws); for every other parsed body it
returns 400 Invalid messages format exactly when the messages field is
missing or not an array, and otherwise 200 with the JSON assistant
message and Content-Type application/json. -/
theorem C8_post_response_characterization (p : Except Unit JsonValue) (r : Nat) :
    POST p r =
      match p with
      | .error _ =>
        { status := 500, body := .text "Internal Server Error", contentType := none }
      | .ok .jnull =>
        { status := 500, body := .text "Internal Server Error", contentType := none }
      | .ok v =>
        if hasValidMessages v then
          { status := 200
          , body := .jsonMsg { role := "assistant", content := getBotResponse r }
          , contentType := some "application/json" }
        else
          { status := 400, body := .text "Invalid messages format", contentType := none } := by
  cases p with
  | error e => rfl
  | ok v =>
    cases v with
    | jnull => rfl
    | jobj fields =>
      show POST (Except.ok (JsonValue.jobj fields)) r = _
      unfold POST getMessagesField hasValidMessages messagesFieldOf
      cases hl : fields.lookup "messages" with
      | none => simp [hl]
      | some m => cases m <;> simp [hl, truthy, isArray]
    | jbool b => simp [POST, getMessagesField, hasValidMessages, messagesFieldOf]
    | jnum n => simp [POST, getMessagesField, hasValidMessages, messagesFieldOf]
    | jstr s => simp [POST, getMessagesField, hasValidMessages, messagesFieldOf]
    | jarr elems => simp [POST, getMessagesField, hasValidMessages, messagesFieldOf]

/-! ## Claim C2: provider routing (Axum backend) -/

/-- An upstream AI provider of the Axum backend. -/
inductive Provider where
  | openai
  | gemini
deriving DecidableEq, Repr

/-- Modelled from the spec: the Axum backend source (axum-app
openai_service.rs and chat.rs) is absent from the repository snapshot;
only its documentation is present (src/unnamed/part_005, Automatic
Provider Detection, and the axum-app README).  Per that documentation the
backend routes a request by the model name: names starting with gpt-
route to OpenAI, names starting with gemini- route to Google Gemini, and
unknown models default to OpenAI. -/
def selectProvider (model : String) : Provider :=
  if jsStartsWith model "gpt-" then Provider.openai
  else if jsStartsWith model "gemini-" then Provider.gemini
  else Provider.openai

/-- C2: the provider is selected by string-prefix match on the model
field; Gemini is chosen exactly for gemini- prefixed names not claimed by
the gpt- rule, and OpenAI is chosen in every other case, in particular as
the default for unknown model names. -/
theorem C2_provider_routing (model : String) :
    (selectProvider model = Provider.gemini ↔
      (jsStartsWith model "gemini-" = true ∧ jsStartsWith model "gpt-" = false)) ∧
    (selectProvider model = Provider.openai ↔
      (jsStartsWith model "gpt-" = true ∨ jsStartsWith model "gemini-" = false)) := by
  unfold selectProvider
  by_cases h1 : jsStartsWith model "gpt-" = true <;>
    by_cases h2 : jsStartsWith model "gemini-" = true <;>
      simp_all

/-! ## Claim C3: the SSE stream shape (Axum backend) -/

/-- Modelled from the spec: one data line of the streaming response,
carrying an AI-SDK text-delta JSON chunk.  The Axum streaming handler is
absent from the snapshot; its documentation (src/unnamed/part_000,
section 3, and src/unnamed/part_005) shows each event as
`data: \x7b"type":"text-delta","textDelta":...\x7d`.  Lines are modelled
as character lists. -/
def sseLine (delta : List Char) : List Char :=
  "data: \x7b\"type\":\"text-delta\",\"textDelta\":\"".data ++ delta ++ "\"\x7d".data

/-- The terminating line of the documented streaming response. -/
def doneLine : List Char := "data: [DONE]".data

/-- Modelled from the spec: the full Server-Sent-Events stream for a list
of text deltas: one data line per chunk, then the single terminating
`data: [DONE]` line. -/
def sseStream (deltas : List (List Char)) : List (List Char) :=
  deltas.map sseLine ++ [doneLine]

/-- A chunk line is never the terminating line: it is strictly longer. -/
theorem sseLine_ne_doneLine (delta : List Char) : sseLine delta ≠ doneLine := by
  intro h
  have hlen := congrArg List.length h
  simp [sseLine, doneLine] at hlen

/-- C3: the streaming response is the data lines of the chunks followed by
exactly one terminating `data: [DONE]` line as the final event: the last
line is the DONE line, everything before it is the translated chunk
lines, the DONE line occurs exactly once, and every line of the stream is
a `data: ` line. -/
theorem C3_sse_stream_shape (deltas : List (List Char)) :
    (sseStream deltas).getLast? = some doneLine ∧
    (sseStream deltas).dropLast = deltas.map sseLine ∧
    (sseStream deltas).count doneLine = 1 ∧
    ∀ line ∈ sseStream deltas, ∃ rest, line = "data: ".data ++ rest := by
  refine ⟨?_, ?_, ?_, ?_⟩
  · simp [sseStream]
  · simp [sseStream]
  · rw [sseStream, List.count_append]
    have hzero : (deltas.map sseLine).count doneLine = 0 := by
      rw [List.count_eq_zero]
      intro hmem
      obtain ⟨d, _, hd⟩ := List.mem_map.mp hmem
      exact sseLine_ne_doneLine d hd
    rw [hzero]
    decide
  · intro line hline
    rw [sseStream, List.mem_append] at hline
    cases hline with
    | inl hmap =>
      obtain ⟨d, _, hd⟩ := List.mem_map.mp hmap
      refine ⟨"\x7b\"type\":\"text-delta\",\"textDelta\":\"".data ++ d ++ "\"\x7d".data, ?_⟩
      rw [← hd]
      simp [sseLine]
    | inr hdone =>
      rw [List.mem_singleton] at hdone
      exact ⟨"[DONE]".data, by rw [hdone]; rfl⟩

/-- Witness for C3 at a concrete one-chunk stream. -/
theorem C3_sse_stream_shape_witness :
    (sseStream ["Hi".data]).getLast? = some doneLine ∧
    (∃ rest, doneLine = "data: ".data ++ rest) :=
  ⟨(C3_sse_stream_shape ["Hi".data]).1,
   (C3_sse_stream_shape ["Hi".data]).2.2.2 doneLine (by simp [sseStream])⟩

/-! ## Claim C4: customFetch (src/unnamed/part_001, lines 402-469) -/

/-- The input of a fetch call: a string URL, or any other RequestInfo or
URL object (whose identity is irrelevant to the routing decision). -/
inductive FetchInput where
  | str (s : String)
  | obj (tag : Nat)
deriving DecidableEq, Repr

/-- The init argument of a fetch call.  A non-string body would pass
through JSON.stringify in the source; the embedding carries the resulting
string form directly. -/
structure RequestInit where
  method : Option String
  headers : List (String × String)
  body : Option String
deriving DecidableEq, Repr

/-- The payload handed to invoke with the local-app-request command. -/
structure LocalRequest where
  uri : String
  method : String
  headers : List (String × String)
  body : Option String
deriving DecidableEq, Repr

/-- The raw response delivered by the Tauri bridge: a status code, a body
that is either a byte array or already a string, and headers. -/
structure TauriResponse where
  status_code : Nat
  body : Sum (List Nat) String
  headers : List (String × String)
deriving DecidableEq, Repr

/-- A browser Response as the frontend observes it. -/
structure JsResponse where
  status : Nat
  bodyText : String
  headers : List (String × String)
deriving DecidableEq, Repr

/-- The ambient browser and desktop-shell environment of customFetch.
windowDefined and tauriGlobal model the guard
`typeof window !== undefined and window.__TAURI__`; resolveUri models
`new URL(input, window.location.origin)` followed by pathname + search;
decodeBytes models `new TextDecoder().decode`; tauriInvoke models
`invoke(local_app_request)`, with error meaning the call threw; stdFetch
is the standard fetch. -/
structure FetchEnv where
  windowDefined : Bool
  tauriGlobal : Bool
  resolveUri : String → String
  decodeBytes : List Nat → String
  tauriInvoke : LocalRequest → Except Unit TauriResponse
  stdFetch : FetchInput → Option RequestInit → JsResponse

/-- The JavaScript or-default on an optional string option, where the
empty string is falsy: `init?.method || GET`. -/
def jsOrDefault (o : Option String) (d : String) : String :=
  match o with
  | some s => if s = "" then d else s
  | none => d

/-- The body expression `init?.body ? body : null`, where an empty string
body is falsy and therefore replaced by null. -/
def jsBodyOrNull (o : Option String) : Option String :=
  match o with
  | some b => if b = "" then none else some b
  | none => none

/-- The LocalRequest built by customFetch for a string input s. -/
def mkLocalRequest (env : FetchEnv) (s : String) (init : Option RequestInit) : LocalRequest :=
  { uri := env.resolveUri s
  , method := jsOrDefault (init.bind (fun i => i.method)) "GET"
  , headers := (init.map (fun i => i.headers)).getD []
  , body := jsBodyOrNull (init.bind (fun i => i.body)) }

/-- The body text of a Tauri response: a byte-array body is decoded to
text, a string body is used as is. -/
def tauriBodyText (env : FetchEnv) (tr : TauriResponse) : String :=
  match tr.body with
  | .inl bytes => env.decodeBytes bytes
  | .inr txt => txt

/-- customFetch of src/unnamed/part_001 (lines 402-469): in a Tauri
environment, a string input starting with /api/ is routed through the
Tauri bridge and the bridge response is wrapped in a Response with the
returned status code and headers; if the bridge call throws, and for
every other input, the standard fetch answers with the same arguments. -/
def customFetch (env : FetchEnv) (input : FetchInput) (init : Option RequestInit) : JsResponse :=
  match input with
  | .str s =>
    if env.windowDefined ∧ env.tauriGlobal ∧ jsStartsWith s "/api/" then
      match env.tauriInvoke (mkLocalRequest env s init) with
      | .ok tr =>
        { status := tr.status_code, bodyText := tauriBodyText env tr, headers := tr.headers }
      | .error _ => env.stdFetch input init
    else env.stdFetch input init
  | .obj t => env.stdFetch (FetchInput.obj t) init

/-- The routing condition as the claim states it: the runtime is a Tauri
environment and the input is a string starting with /api/. -/
def tauriRouteCond (env : FetchEnv) (input : FetchInput) : Bool :=
  match input with
  | .str s => env.windowDefined && env.tauriGlobal && jsStartsWith s "/api/"
  | .obj _ => false

/-- C4: customFetch goes through the Tauri bridge exactly when the runtime
is a Tauri environment and the input is a string starting with /api/:
under that condition a successful bridge call yields a Response with the
returned status code and headers and the byte-array body decoded to
text, and a throwing bridge call falls back to the standard fetch on the
same arguments; outside that condition customFetch is exactly the
standard fetch on the same arguments. -/
theorem C4_customFetch_routing (env : FetchEnv) (input : FetchInput) (init : Option RequestInit) :
    (tauriRouteCond env input = false →
      customFetch env input init = env.stdFetch input init) ∧
    (∀ s, input = FetchInput.str s → tauriRouteCond env input = true →
      (∀ tr, env.tauriInvoke (mkLocalRequest env s init) = Except.ok tr →
        customFetch env input init =
          { status := tr.status_code, bodyText := tauriBodyText env tr, headers := tr.headers }) ∧
      (∀ e, env.tauriInvoke (mkLocalRequest env s init) = Except.error e →
        customFetch env input init = env.stdFetch input init)) := by
  constructor
  · intro hcond
    cases input with
    | str s =>
      simp only [tauriRouteCond, Bool.and_eq_false_iff] at hcond
      simp only [customFetch]
      rw [if_neg]
      intro ⟨h1, h2, h3⟩
      rcases hcond with (h | h) | h
      · rw [h1] at h; exact Bool.false_ne_true h.symm
      · rw [h2] at h; exact Bool.false_ne_true h.symm
      · rw [h3] at h; exact Bool.false_ne_true h.symm
    | obj t => rfl
  · intro s hs hcond
    subst hs
    simp only [tauriRouteCond, Bool.and_eq_true] at hcond
    obtain ⟨⟨h1, h2⟩, h3⟩ := hcond
    constructor
    · intro tr htr
      simp [customFetch, h1, h2, h3, htr]
    · intro e he
      simp [customFetch, h1, h2, h3, he]

/-- A concrete Tauri environment whose bridge answers a byte-array body. -/
def fetchEnvOk : FetchEnv :=
  { windowDefined := true, tauriGlobal := true
  , resolveUri := fun s => s
  , decodeBytes := fun _ => "hi"
  , tauriInvoke := fun _ => Except.ok { status_code := 200, body := Sum.inl [104, 105], headers := [] }
  , stdFetch := fun _ _ => { status := 404, bodyText := "std", headers := [] } }

/-- A concrete Tauri environment whose bridge call throws. -/
def fetchEnvErr : FetchEnv :=
  { fetchEnvOk with tauriInvoke := fun _ => Except.error () }

/-- A concrete non-Tauri environment. -/
def fetchEnvOff : FetchEnv :=
  { fetchEnvOk with windowDefined := false, tauriGlobal := false }

/-- Witness for C4: a concrete Tauri environment routing an /api/ request
through the bridge with a byte-array body, a throwing bridge call, and a
non-Tauri call, all reduced to their concrete responses. -/
theorem C4_customFetch_routing_witness :
    customFetch fetchEnvOk (FetchInput.str "/api/chat") none =
      { status := 200, bodyText := "hi", headers := [] } ∧
    customFetch fetchEnvErr (FetchInput.str "/api/chat") none =
      { status := 404, bodyText := "std", headers := [] } ∧
    customFetch fetchEnvOff (FetchInput.str "/other") none =
      { status := 404, bodyText := "std", headers := [] } := by
  refine ⟨?_, ?_, ?_⟩
  · exact ((C4_customFetch_routing fetchEnvOk (FetchInput.str "/api/chat") none).2
      "/api/chat" rfl (by decide)).1 _ rfl
  · exact ((C4_customFetch_routing fetchEnvErr (FetchInput.str "/api/chat") none).2
      "/api/chat" rfl (by decide)).2 () rfl
  · exact (C4_customFetch_routing fetchEnvOff (FetchInput.str "/other") none).1 (by decide)

/-! ## The main chat application state (src/src/main.ts)

The reactive refs of the main component are collected into one record.
Purely visual refs that no modelled operation touches (sidebarOpen,
darkMode, autoScrollEnabled, isRecording, attachments, the container
element) are omitted.  Date.now values and new Date timestamps are passed
in as natural-number time parameters. -/

/-- The UI status flag, typed in the source as a ref over the union of
the three literal values idle, loading and error, starting at idle. -/
inductive Status where
  | idle
  | loading
  | error
deriving DecidableEq, Repr

/-- A chat message of src/src/main.ts (lines 123-129). -/
structure ChatMessage where
  id : String
  role : String
  content : String
  timestamp : Nat
  conversationId : String
deriving DecidableEq, Repr

/-- A conversation of src/src/main.ts (lines 131-138). -/
structure Conversation where
  id : String
  title : String
  lastMessage : String
  timestamp : Nat
  model : String
  messageCount : Nat
deriving DecidableEq, Repr

/-- The mutable refs of the main component (src/src/main.ts,
lines 140-154). -/
structure AppState where
  input : String
  messages : List ChatMessage
  conversations : List Conversation
  currentConversationId : String
  searchQuery : String
  status : Status
  errorMsg : Option String
  selectedModel : String
  newChatDialogOpen : Bool
deriving DecidableEq, Repr

/-- The initial values of the refs. -/
def initialState : AppState :=
  { input := ""
  , messages := []
  , conversations := []
  , currentConversationId := ""
  , searchQuery := ""
  , status := Status.idle
  , errorMsg := none
  , selectedModel := "gpt-3.5-turbo"
  , newChatDialogOpen := false }

/-- JavaScript Array.prototype.findIndex, with the -1 result modelled as
none. -/
def findIndex (p : α → Bool) : List α → Option Nat
  | [] => none
  | a :: as => if p a then some 0 else (findIndex p as).map (· + 1)

/-- Replace the element at an index by the image under f; out-of-range
indices leave the list unchanged. -/
def updateAt : List α → Nat → (α → α) → List α
  | [], _, _ => []
  | a :: as, 0, f => f a :: as
  | a :: as, n + 1, f => a :: updateAt as n f

/-- JavaScript splice(i, 1): drop the element at an index. -/
def removeAt : List α → Nat → List α
  | [], _ => []
  | _ :: as, 0 => as
  | a :: as, n + 1 => a :: removeAt as n

/-- loadConversationMessages of src/src/main.ts (lines 255-293): makes the
given conversation current, installs its demo message list, and resets
input, error and status. -/
def loadConversationMessages (st : AppState) (conversationId : String) (now : Nat) : AppState :=
  let msgs :=
    if conversationId = "1" then
      [ { id := "1-1", role := "assistant"
        , content := "Hello! I\x27m Iroh Chat, your AI assistant. How can I help you today?"
        , timestamp := now, conversationId := "1" } ]
    else if conversationId = "2" then
      [ { id := "2-1", role := "user"
        , content := "Can you help me implement this new feature?"
        , timestamp := now - 300000, conversationId := "2" }
      , { id := "2-2", role := "assistant"
        , content := "I\x27d be happy to help you with that feature. Let me break it down into manageable steps and guide you through the implementation process."
        , timestamp := now - 180000, conversationId := "2" } ]
    else []
  { st with currentConversationId := conversationId
          , messages := msgs
          , input := ""
          , errorMsg := none
          , status := Status.idle }

/-- createNewConversation of src/src/main.ts (lines 296-318): prepends a
fresh conversation titled New Conversation with the selected model and
makes it current; the new id is Date.now().toString(). -/
def createNewConversation (st : AppState) (now : Nat) : AppState :=
  let newId := toString now
  let newConversation : Conversation :=
    { id := newId, title := "New Conversation", lastMessage := ""
    , timestamp := now, model := st.selectedModel, messageCount := 0 }
  { st with conversations := newConversation :: st.conversations
          , currentConversationId := newId
          , messages := []
          , input := ""
          , newChatDialogOpen := false }

/-- deleteConversation of src/src/main.ts (lines 321-338): splice out the
conversation with the given id when present; when the deleted
conversation was current, load the first remaining conversation, or
create a fresh conversation when none remains. -/
def deleteConversation (st : AppState) (conversationId : String) (now : Nat) : AppState :=
  match findIndex (fun c => c.id == conversationId) st.conversations with
  | none => st
  | some i =>
    let st1 := { st with conversations := removeAt st.conversations i }
    if conversationId = st.currentConversationId then
      match st1.conversations with
      | c :: _ => loadConversationMessages st1 c.id now
      | [] => createNewConversation st1 now
    else st1

/-- The data carried across the awaited pause inside handleSubmit: the
trimmed user message and the index of the current conversation captured
before the await. -/
structure PendingSubmit where
  userMessage : String
  convIndex : Option Nat
deriving DecidableEq, Repr

/-- How the awaited body of handleSubmit ends: the simulated response
resolves (with the random draw for the canned sentence), or the body
throws (some message for an Error value, none for a non-Error throw). -/
inductive Outcome where
  | success (randDraw : Nat)
  | failure (errMessage : Option String)
deriving DecidableEq, Repr

/-- The synchronous opening of handleSubmit of src/src/main.ts
(lines 351-379), up to the awaited pause: reject when the trimmed input
is empty or the status is loading; otherwise clear the input, push the
user message, update the current conversation (last message, timestamp,
message count), and enter the loading state. -/
def handleSubmitStart (st : AppState) (now : Nat) : AppState × Option PendingSubmit :=
  if jsTrim st.input = "" ∨ st.status = Status.loading then (st, none)
  else
    let userMessage := jsTrim st.input
    let convIndex := findIndex (fun c => c.id == st.currentConversationId) st.conversations
    let msgs := st.messages ++
      [ { id := toString now, role := "user", content := userMessage
        , timestamp := now, conversationId := st.currentConversationId } ]
    let convs :=
      match convIndex with
      | some i => updateAt st.conversations i (fun c =>
          { c with lastMessage := userMessage, timestamp := now
                 , messageCount := c.messageCount + 1 })
      | none => st.conversations
    ( { st with input := "", messages := msgs, conversations := convs
              , status := Status.loading, errorMsg := none }
    , some { userMessage := userMessage, convIndex := convIndex } )

/-- The rest of handleSubmit of src/src/main.ts (lines 381-405), after the
awaited pause: on resolution push the assistant message with the canned
response, refresh the current conversation, and return to idle; on a
caught throw record the error message and enter the error state. -/
def handleSubmitFinish (st : AppState) (p : PendingSubmit) (outcome : Outcome) (now : Nat) :
    AppState :=
  match outcome with
  | .success r =>
    let botResponse := getBotResponse r
    let msgs := st.messages ++
      [ { id := toString (now + 1), role := "assistant", content := botResponse
        , timestamp := now, conversationId := st.currentConversationId } ]
    let convs :=
      match p.convIndex with
      | some i => updateAt st.conversations i (fun c =>
          { c with lastMessage := botResponse, timestamp := now })
      | none => st.conversations
    { st with messages := msgs, conversations := convs, status := Status.idle }
  | .failure errMessage =>
    { st with errorMsg := some (errMessage.getD "An error occurred")
            , status := Status.error }

/-- filteredConversations of src/src/main.ts (lines 197-202), as a
function of the two refs it reads: the empty search query (the only
falsy string) returns the list unchanged, otherwise the list is filtered
by case-insensitive title containment. -/
def filteredConversations (convs : List Conversation) (q : String) : List Conversation :=
  if q = "" then convs
  else convs.filter (fun c => jsIncludes (jsToLower c.title) (jsToLower q))

/-- Updating the same index twice composes the two updates. -/
theorem updateAt_updateAt (l : List α) (i : Nat) (f g : α → α) :
    updateAt (updateAt l i f) i g = updateAt l i (fun a => g (f a)) := by
  induction l generalizing i with
  | nil => rfl
  | cons a as ih =>
    cases i with
    | zero => rfl
    | succ n => simp [updateAt, ih]

/-! ## Claim C5 -/

/-- C5: the status flag starts at idle and only ever holds one of the
three values idle, loading and error; handleSubmit leaves the state
untouched while loading, an accepted submit enters loading, a resolved
response returns to idle, and a caught throw enters error. -/
theorem C5_status_flag_machine :
    initialState.status = Status.idle ∧
    (∀ s : Status, s = Status.idle ∨ s = Status.loading ∨ s = Status.error) ∧
    (∀ st now, st.status = Status.loading → handleSubmitStart st now = (st, none)) ∧
    (∀ st now, st.status = Status.idle → jsTrim st.input ≠ "" →
      (handleSubmitStart st now).1.status = Status.loading) ∧
    (∀ st p r now, (handleSubmitFinish st p (Outcome.success r) now).status = Status.idle) ∧
    (∀ st p m now, (handleSubmitFinish st p (Outcome.failure m) now).status = Status.error) := by
  refine ⟨rfl, ?_, ?_, ?_, ?_, ?_⟩
  · intro s
    cases s
    · exact Or.inl rfl
    · exact Or.inr (Or.inl rfl)
    · exact Or.inr (Or.inr rfl)
  · intro st now h
    simp [handleSubmitStart, h]
  · intro st now hs hi
    simp [handleSubmitStart, hi, hs]
  · intro st p r now
    rfl
  · intro st p m now
    rfl

/-- A state in the loading status with pending input. -/
def loadingState : AppState :=
  { initialState with status := Status.loading, input := "more" }

/-- An idle state with nonblank input. -/
def typedState : AppState :=
  { initialState with input := " hello " }

/-- Witness for C5 at concrete states: a submit during loading is ignored
and an accepted submit enters loading. -/
theorem C5_status_flag_machine_witness :
    handleSubmitStart loadingState 5 = (loadingState, none) ∧
    (handleSubmitStart typedState 5).1.status = Status.loading :=
  ⟨C5_status_flag_machine.2.2.1 loadingState 5 rfl,
   C5_status_flag_machine.2.2.2.1 typedState 5 rfl (by decide)⟩

/-! ## Claim C6 -/

/-- C6: an accepted submit (nonblank trimmed input, not loading, the
current conversation present at index i) hands the trimmed message to
the awaited phase, appends the trimmed user message and then exactly one
assistant message to the message list, and over the whole operation
updates the current conversation to the assistant response with a
refreshed timestamp and a message count one larger than before. -/
theorem C6_submit_appends_and_updates (st : AppState) (t1 t2 r i : Nat)
    (hstatus : st.status ≠ Status.loading)
    (hinput : jsTrim st.input ≠ "")
    (hidx : findIndex (fun c => c.id == st.currentConversationId) st.conversations = some i) :
    (handleSubmitStart st t1).2 =
      some { userMessage := jsTrim st.input, convIndex := some i } ∧
    (handleSubmitFinish (handleSubmitStart st t1).1
        { userMessage := jsTrim st.input, convIndex := some i }
        (Outcome.success r) t2).messages =
      st.messages ++
        [ { id := toString t1, role := "user", content := jsTrim st.input
          , timestamp := t1, conversationId := st.currentConversationId }
        , { id := toString (t2 + 1), role := "assistant", content := getBotResponse r
          , timestamp := t2, conversationId := st.currentConversationId } ] ∧
    (handleSubmitFinish (handleSubmitStart st t1).1
        { userMessage := jsTrim st.input, convIndex := some i }
        (Outcome.success r) t2).conversations =
      updateAt st.conversations i (fun c =>
        { c with lastMessage := getBotResponse r, timestamp := t2
               , messageCount := c.messageCount + 1 }) := by
  have hcond : ¬(jsTrim st.input = "" ∨ st.status = Status.loading) := by
    intro h
    cases h with
    | inl h => exact hinput h
    | inr h => exact hstatus h
  refine ⟨?_, ?_, ?_⟩
  · simp [handleSubmitStart, if_neg hcond, hidx]
  · simp [handleSubmitStart, if_neg hcond, handleSubmitFinish, hidx]
  · simp only [handleSubmitStart, if_neg hcond, handleSubmitFinish, hidx]
    rw [updateAt_updateAt]

/-- A state ready for a full submit round trip. -/
def readyState : AppState :=
  { initialState with
      input := " hi there "
      conversations :=
        [ { id := "1", title := "Welcome to Iroh Chat", lastMessage := "x"
          , timestamp := 0, model := "gpt-3.5-turbo", messageCount := 2 } ]
      currentConversationId := "1" }

/-- Witness for C6 at a concrete state, with the conversation update
spelled out. -/
theorem C6_submit_appends_and_updates_witness :
    (handleSubmitStart readyState 10).2 =
      some { userMessage := "hi there", convIndex := some 0 } ∧
    (handleSubmitFinish (handleSubmitStart readyState 10).1
        { userMessage := "hi there", convIndex := some 0 }
        (Outcome.success 2) 20).conversations =
      [ { id := "1", title := "Welcome to Iroh Chat"
        , lastMessage := "Thanks for sharing! What else would you like to discuss?"
        , timestamp := 20, model := "gpt-3.5-turbo", messageCount := 3 } ] := by
  have h := C6_submit_appends_and_updates readyState 10 20 2 0
    (by decide) (by decide) (by decide)
  have e : jsTrim readyState.input = "hi there" := by decide
  rw [e] at h
  refine ⟨h.1, ?_⟩
  rw [h.2.2]
  decide

/-! ## Claim C7 -/

/-- The empty pattern occurs in every character list. -/
theorem occursIn_nil (l : List Char) : occursIn [] l = true := by
  cases l <;> simp [occursIn, leadsList]

/-- Every string includes the empty string. -/
theorem jsIncludes_empty (s : String) : jsIncludes s "" = true := by
  show occursIn [] s.data = true
  exact occursIn_nil s.data

/-- C7: filteredConversations is exactly the subsequence of conversations
whose title contains the search query case-insensitively; order is
preserved (the result is a sublist), membership is containment of the
lowered query in the lowered title, and the empty query returns the list
unchanged. -/
theorem C7_filtered_conversations (convs : List Conversation) (q : String) :
    filteredConversations convs q =
      convs.filter (fun c => jsIncludes (jsToLower c.title) (jsToLower q)) ∧
    filteredConversations convs "" = convs ∧
    List.Sublist (filteredConversations convs q) convs ∧
    (∀ c, c ∈ filteredConversations convs q ↔
      (c ∈ convs ∧ jsIncludes (jsToLower c.title) (jsToLower q) = true)) := by
  have hfil : filteredConversations convs q =
      convs.filter (fun c => jsIncludes (jsToLower c.title) (jsToLower q)) := by
    by_cases hq : q = ""
    · subst hq
      show convs = convs.filter (fun c => jsIncludes (jsToLower c.title) (jsToLower ""))
      refine (List.filter_eq_self.mpr ?_).symm
      intro c _
      exact jsIncludes_empty (jsToLower c.title)
    · simp [filteredConversations, hq]
  refine ⟨hfil, ?_, ?_, ?_⟩
  · simp [filteredConversations]
  · rw [hfil]
    exact List.filter_sublist convs
  · intro c
    rw [hfil]
    simp [List.mem_filter]

/-! ## Claim C9 -/

/-- findIndex succeeds on a list holding an element of the given id. -/
theorem findIndex_some_of_mem (l : List Conversation) (cid : String)
    (h : cid ∈ l.map (fun c => c.id)) :
    ∃ i, findIndex (fun c => c.id == cid) l = some i := by
  induction l with
  | nil => simp at h
  | cons a as ih =>
    by_cases ha : a.id == cid
    · exact ⟨0, by simp [findIndex, ha]⟩
    · have hmem : cid ∈ as.map (fun c => c.id) := by
        rcases List.mem_map.mp h with ⟨c, hc, hcid⟩
        cases hc with
        | head => exact absurd (beq_iff_eq.mpr hcid) ha
        | tail _ hc => exact List.mem_map.mpr ⟨c, hc, hcid⟩
      obtain ⟨j, hj⟩ := ih hmem
      exact ⟨j + 1, by simp [findIndex, ha, hj]⟩

/-- When ids are unique, splicing out the found index is filtering the id
out. -/
theorem removeAt_findIndex_filter (l : List Conversation) (cid : String)
    (hnodup : (l.map (fun c => c.id)).Nodup) :
    ∀ i, findIndex (fun c => c.id == cid) l = some i →
      removeAt l i = l.filter (fun c => c.id != cid) := by
  induction l with
  | nil => intro i h; simp [findIndex] at h
  | cons a as ih =>
    intro i h
    rw [findIndex] at h
    by_cases ha : a.id == cid
    · rw [if_pos ha] at h
      injection h with h0
      subst h0
      have haid : a.id = cid := beq_iff_eq.mp ha
      have hnotin : a.id ∉ as.map (fun c => c.id) := (List.nodup_cons.mp (by simpa using hnodup)).1
      show as = (a :: as).filter (fun c => c.id != cid)
      rw [List.filter_cons]
      have : (a.id != cid) = false := by simp [haid]
      rw [this]
      simp only [Bool.false_eq_true, if_false]
      refine (List.filter_eq_self.mpr ?_).symm
      intro c hc
      have : c.id ≠ cid := by
        intro heq
        exact hnotin (by rw [haid, ← heq]; exact List.mem_map.mpr ⟨c, hc, rfl⟩)
      simp [this]
    · rw [if_neg ha] at h
      cases hfi : findIndex (fun c => c.id == cid) as with
      | none => rw [hfi] at h; simp at h
      | some j =>
        rw [hfi] at h
        simp at h
        subst h
        have hnd : (as.map (fun c => c.id)).Nodup := (List.nodup_cons.mp (by simpa using hnodup)).2
        show a :: removeAt as j = (a :: as).filter (fun c => c.id != cid)
        rw [List.filter_cons]
        have hane : (a.id != cid) = true := by simpa using ha
        rw [hane]
        simp only [if_true]
        rw [ih hnd j hfi]

/-- C9: deleting a present conversation id (ids unique, current id valid)
removes exactly that conversation and leaves the others unchanged in
order; when the deleted conversation was current, the first remaining
conversation becomes current, and when none remains a fresh conversation
is created and made current; afterwards the list is never empty and the
current id always refers to a conversation in the list. -/
theorem C9_delete_conversation (st : AppState) (cid : String) (now : Nat)
    (hmem : cid ∈ st.conversations.map (fun c => c.id))
    (hnodup : (st.conversations.map (fun c => c.id)).Nodup)
    (hcur : st.currentConversationId ∈ st.conversations.map (fun c => c.id)) :
    (st.currentConversationId ≠ cid →
      (deleteConversation st cid now).conversations =
        st.conversations.filter (fun c => c.id != cid) ∧
      (deleteConversation st cid now).currentConversationId = st.currentConversationId) ∧
    (st.currentConversationId = cid →
      (∀ c rest, st.conversations.filter (fun c => c.id != cid) = c :: rest →
        (deleteConversation st cid now).conversations = c :: rest ∧
        (deleteConversation st cid now).currentConversationId = c.id) ∧
      (st.conversations.filter (fun c => c.id != cid) = [] →
        (deleteConversation st cid now).conversations =
          [ { id := toString now, title := "New Conversation", lastMessage := ""
            , timestamp := now, model := st.selectedModel, messageCount := 0 } ] ∧
        (deleteConversation st cid now).currentConversationId = toString now)) ∧
    (deleteConversation st cid now).conversations ≠ [] ∧
    (deleteConversation st cid now).currentConversationId ∈
      (deleteConversation st cid now).conversations.map (fun c => c.id) := by
  obtain ⟨i, hfi⟩ := findIndex_some_of_mem st.conversations cid hmem
  have hrm := removeAt_findIndex_filter st.conversations cid hnodup i hfi
  by_cases hc : cid = st.currentConversationId
  · have hdel : deleteConversation st cid now =
        (match st.conversations.filter (fun c => c.id != cid) with
         | c :: rest =>
           loadConversationMessages
             { st with conversations := st.conversations.filter (fun c => c.id != cid) } c.id now
         | [] =>
           createNewConversation
             { st with conversations := st.conversations.filter (fun c => c.id != cid) } now) := by
      rw [deleteConversation, hfi]
      simp only [hrm, if_pos hc]
    cases hfil : st.conversations.filter (fun c => c.id != cid) with
    | nil =>
      rw [hfil] at hdel
      refine ⟨fun hne => absurd hc.symm hne, fun _ => ⟨?_, fun _ => ?_⟩, ?_, ?_⟩
      · intro c rest hcr
        exact absurd hcr (by simp)
      · rw [hdel]
        exact ⟨by simp [createNewConversation, hfil], rfl⟩
      · rw [hdel]
        simp [createNewConversation, hfil]
      · rw [hdel]
        simp [createNewConversation, hfil]
    | cons c0 rest0 =>
      rw [hfil] at hdel
      refine ⟨fun hne => absurd hc.symm hne, fun _ => ⟨?_, fun hnil => ?_⟩, ?_, ?_⟩
      · intro c rest hcr
        injection hcr with e1 e2
        subst e1
        subst e2
        rw [hdel]
        exact ⟨by simp [loadConversationMessages, hfil], rfl⟩
      · exact absurd hnil (by simp)
      · rw [hdel]
        simp [loadConversationMessages, hfil]
      · rw [hdel]
        simp [loadConversationMessages, hfil]
  · have hdel : deleteConversation st cid now =
        { st with conversations := st.conversations.filter (fun c => c.id != cid) } := by
      rw [deleteConversation, hfi]
      simp only [hrm, if_neg hc]
    have hcurmem : st.currentConversationId ∈
        (st.conversations.filter (fun c => c.id != cid)).map (fun c => c.id) := by
      rcases List.mem_map.mp hcur with ⟨c, hcm, hcid⟩
      refine List.mem_map.mpr ⟨c, List.mem_filter.mpr ⟨hcm, ?_⟩, hcid⟩
      simp only [bne_iff_ne, ne_eq]
      intro heq
      exact hc (by rw [← heq, hcid])
    have hconvs : (deleteConversation st cid now).conversations =
        st.conversations.filter (fun c => c.id != cid) := by rw [hdel]
    have hcur2 : (deleteConversation st cid now).currentConversationId =
        st.currentConversationId := by rw [hdel]
    refine ⟨fun _ => ⟨hconvs, hcur2⟩, fun heq => absurd heq.symm hc, ?_, ?_⟩
    · intro hnil
      rw [hconvs] at hnil
      rw [hnil] at hcurmem
      simp at hcurmem
    · rw [hconvs, hcur2]
      exact hcurmem

/-- A concrete two-conversation state with the first conversation
current. -/
def twoConvState : AppState :=
  { initialState with
      conversations :=
        [ { id := "1", title := "Welcome to Iroh Chat", lastMessage := "Hello!"
          , timestamp := 0, model := "gpt-3.5-turbo", messageCount := 2 }
        , { id := "2", title := "Project Discussion", lastMessage := "Let me help."
          , timestamp := 0, model := "gpt-4", messageCount := 5 } ]
      currentConversationId := "1" }

/-- Witness for C9: deleting the current conversation of the concrete
two-conversation state makes the remaining conversation current. -/
theorem C9_delete_conversation_witness :
    (deleteConversation twoConvState "1" 99).conversations =
      [ { id := "2", title := "Project Discussion", lastMessage := "Let me help."
        , timestamp := 0, model := "gpt-4", messageCount := 5 } ] ∧
    (deleteConversation twoConvState "1" 99).currentConversationId = "2" := by
  have h := ((C9_delete_conversation twoConvState "1" 99
    (by decide) (by decide) (by decide)).2.1 rfl).1
    { id := "2", title := "Project Discussion", lastMessage := "Let me help."
    , timestamp := 0, model := "gpt-4", messageCount := 5 } [] (by decide)
  exact h

/-! ## Claim C10: message feedback (src/unnamed/part_001, lines 1027-1053)

The liked and disliked refs are records from message keys to booleans; a
read of a missing key is undefined and falsy, so each record is modelled
as a total function defaulting to false. -/

/-- The liked and disliked records. -/
structure FeedbackState where
  liked : String → Bool
  disliked : String → Bool

/-- Both records start empty. -/
def initialFeedback : FeedbackState :=
  { liked := fun _ => false, disliked := fun _ => false }

/-- toggleLike of src/unnamed/part_001 (lines 1027-1039): flip liked[key];
when the value just written is true, reset disliked[key] to false. -/
def toggleLike (st : FeedbackState) (key : String) : FeedbackState :=
  let newLiked := fun k => if k = key then !st.liked key else st.liked k
  if newLiked key then
    { liked := newLiked, disliked := fun k => if k = key then false else st.disliked k }
  else
    { st with liked := newLiked }

/-- toggleDislike of src/unnamed/part_001 (lines 1041-1053): flip
disliked[key]; when the value just written is true, reset liked[key] to
false. -/
def toggleDislike (st : FeedbackState) (key : String) : FeedbackState :=
  let newDisliked := fun k => if k = key then !st.disliked key else st.disliked k
  if newDisliked key then
    { disliked := newDisliked, liked := fun k => if k = key then false else st.liked k }
  else
    { st with disliked := newDisliked }

/-- One user feedback action. -/
inductive FeedbackOp where
  | like (key : String)
  | dislike (key : String)
deriving DecidableEq, Repr

/-- Apply one feedback action. -/
def applyFeedbackOp (st : FeedbackState) : FeedbackOp → FeedbackState
  | .like k => toggleLike st k
  | .dislike k => toggleDislike st k

/-- Run a sequence of feedback actions from the initial empty records. -/
def runFeedbackOps (ops : List FeedbackOp) : FeedbackState :=
  ops.foldl applyFeedbackOp initialFeedback

/-- No key is ever both liked and disliked. -/
def feedbackConsistent (st : FeedbackState) : Prop :=
  ∀ k, ¬(st.liked k = true ∧ st.disliked k = true)

/-- One feedback action preserves consistency. -/
theorem applyFeedbackOp_consistent (st : FeedbackState) (op : FeedbackOp)
    (h : feedbackConsistent st) : feedbackConsistent (applyFeedbackOp st op) := by
  cases op with
  | like key =>
    intro k
    by_cases hk : k = key
    · subst hk
      by_cases hl : st.liked k = true
      · simp [applyFeedbackOp, toggleLike, hl]
      · simp [applyFeedbackOp, toggleLike, Bool.eq_false_iff.mpr hl]
    · by_cases hl : st.liked key = true
      · simpa [applyFeedbackOp, toggleLike, hl, hk] using h k
      · simpa [applyFeedbackOp, toggleLike, Bool.eq_false_iff.mpr hl, hk] using h k
  | dislike key =>
    intro k
    by_cases hk : k = key
    · subst hk
      by_cases hd : st.disliked k = true
      · simp [applyFeedbackOp, toggleDislike, hd]
      · simp [applyFeedbackOp, toggleDislike, Bool.eq_false_iff.mpr hd]
    · by_cases hd : st.disliked key = true
      · simpa [applyFeedbackOp, toggleDislike, hd, hk] using h k
      · simpa [applyFeedbackOp, toggleDislike, Bool.eq_false_iff.mpr hd, hk] using h k

/-- Running any action sequence from a consistent state stays
consistent. -/
theorem foldl_feedback_consistent (ops : List FeedbackOp) :
    ∀ st, feedbackConsistent st → feedbackConsistent (ops.foldl applyFeedbackOp st) := by
  induction ops with
  | nil => intro st h; exact h
  | cons op rest ih =>
    intro st h
    exact ih (applyFeedbackOp st op) (applyFeedbackOp_consistent st op h)

/-- C10: from the initial empty records, no sequence of toggleLike and
toggleDislike actions ever leaves a key both liked and disliked; a like
that lands true clears the dislike on its key, a dislike that lands true
clears the like on its key, and both operations leave every other key
untouched. -/
theorem C10_feedback_exclusive :
    (∀ ops k, ¬((runFeedbackOps ops).liked k = true ∧ (runFeedbackOps ops).disliked k = true)) ∧
    (∀ st k, (toggleLike st k).liked k = true → (toggleLike st k).disliked k = false) ∧
    (∀ st k, (toggleDislike st k).disliked k = true → (toggleDislike st k).liked k = false) ∧
    (∀ st k k2, k2 ≠ k →
      (toggleLike st k).liked k2 = st.liked k2 ∧
      (toggleLike st k).disliked k2 = st.disliked k2 ∧
      (toggleDislike st k).liked k2 = st.liked k2 ∧
      (toggleDislike st k).disliked k2 = st.disliked k2) := by
  refine ⟨?_, ?_, ?_, ?_⟩
  · intro ops
    exact foldl_feedback_consistent ops initialFeedback (fun k => by simp [initialFeedback])
  · intro st k
    by_cases hl : st.liked k = true
    · simp [toggleLike, hl]
    · simp [toggleLike, Bool.eq_false_iff.mpr hl]
  · intro st k
    by_cases hd : st.disliked k = true
    · simp [toggleDislike, hd]
    · simp [toggleDislike, Bool.eq_false_iff.mpr hd]
  · intro st k k2 hne
    refine ⟨?_, ?_, ?_, ?_⟩
    · by_cases hl : st.liked k = true
      · simp [toggleLike, hl, hne]
      · simp [toggleLike, Bool.eq_false_iff.mpr hl, hne]
    · by_cases hl : st.liked k = true
      · simp [toggleLike, hl, hne]
      · simp [toggleLike, Bool.eq_false_iff.mpr hl, hne]
    · by_cases hd : st.disliked k = true
      · simp [toggleDislike, hd, hne]
      · simp [toggleDislike, Bool.eq_false_iff.mpr hd, hne]
    · by_cases hd : st.disliked k = true
      · simp [toggleDislike, hd, hne]
      · simp [toggleDislike, Bool.eq_false_iff.mpr hd, hne]
/-- Witness for C10: a like then dislike on one key never leaves both
flags set, and a like leaves an unrelated key untouched. -/
theorem C10_feedback_exclusive_witness :
    (¬((runFeedbackOps [FeedbackOp.like "a", FeedbackOp.dislike "a"]).liked "a" = true ∧
       (runFeedbackOps [FeedbackOp.like "a", FeedbackOp.dislike "a"]).disliked "a" = true)) ∧
    (toggleLike initialFeedback "a").disliked "a" = false ∧
    (toggleDislike initialFeedback "a").liked "a" = false ∧
    (toggleLike initialFeedback "a").liked "b" = initialFeedback.liked "b" :=
  ⟨C10_feedback_exclusive.1 [FeedbackOp.like "a", FeedbackOp.dislike "a"] "a",
   C10_feedback_exclusive.2.1 initialFeedback "a" (by decide),
   C10_feedback_exclusive.2.2.1 initialFeedback "a" (by decide),
   (C10_feedback_exclusive.2.2.2 initialFeedback "a" "b" (by decide)).1⟩

end IrohChat
